import Mathlib

/-!
# Verification of the bookstore sales-ledger core (`bookstore_manager.py`)

Shallow embedding of the sales-ledger operations of the bookstore manager:
the SQLite database (tables `member`, `book`, `sale` plus the autoincrement
sequence of `sale.sid`) becomes an explicit `Store` record, and each Python
function that touches the database becomes a Lean function from `Store`
(and the already-tokenized inputs supplied by the CLI layer) to a result
paired with the new `Store`.

SQLite semantics modelled explicitly:
* `fetchone` after `SELECT ... WHERE key = ?` is `List.find?` (first row);
* `UPDATE ... WHERE key = ?` / `DELETE ... WHERE key = ?` act on every row
  whose key matches (`List.map` with a guard / `List.filter`);
* `AUTOINCREMENT` assigns `max (sequence, largest sid present) + 1` and
  records it in the sequence;
* `JOIN` is an inner join (rows without a partner are dropped), and
  `ORDER BY s.sid` sorts the joined rows by `sid`.
-/

namespace Bookstore

/-- A row of the `member` table: `mid TEXT PRIMARY KEY`, `mname`, `mphone`
`NOT NULL`, `memail` nullable. -/
structure Member where
  mid : String
  mname : String
  mphone : String
  memail : Option String
deriving Repr, DecidableEq

/-- A row of the `book` table: `bid TEXT PRIMARY KEY`, `btitle`, integer
`bprice` and `bstock` (SQLite `INTEGER`, so modelled as `Int`). -/
structure Book where
  bid : String
  btitle : String
  bprice : Int
  bstock : Int
deriving Repr, DecidableEq

/-- A row of the `sale` table: `sid INTEGER PRIMARY KEY AUTOINCREMENT`,
`sdate`, `mid`, `bid` (no foreign-key constraint is declared on `mid` or
`bid`), `sqty`, `sdiscount`, `stotal`. -/
structure Sale where
  sid : Int
  sdate : String
  mid : String
  bid : String
  sqty : Int
  sdiscount : Int
  stotal : Int
deriving Repr, DecidableEq

/-- The database state: the three tables plus the `sqlite_sequence` entry for
`sale` (the largest `sid` ever handed out, consulted by `AUTOINCREMENT`). -/
structure Store where
  members : List Member
  books : List Book
  sales : List Sale
  seq : Int
deriving Repr, DecidableEq

/-- Models `SELECT * FROM member WHERE mid = ?` followed by `fetchone`. -/
def findMember (st : Store) (mid : String) : Option Member :=
  st.members.find? (fun m => m.mid == mid)

/-- Models `SELECT * FROM book WHERE bid = ?` followed by `fetchone`. -/
def findBook (st : Store) (bid : String) : Option Book :=
  st.books.find? (fun b => b.bid == bid)

/-- Models `SELECT bid, sqty FROM sale WHERE sid = ?` followed by `fetchone`. -/
def findSale (st : Store) (sid : Int) : Option Sale :=
  st.sales.find? (fun s => s.sid == sid)

/-- The largest `sid` currently present in the `sale` table (`0` when the
table is empty), used by `AUTOINCREMENT`. -/
def maxSid (sales : List Sale) : Int :=
  sales.foldr (fun s acc => max s.sid acc) 0

/-- The `sid` that SQLite `AUTOINCREMENT` assigns to the next inserted row:
one more than the larger of the sequence value and the largest `sid` in the
table. -/
def freshSid (st : Store) : Int :=
  max st.seq (maxSid st.sales) + 1

/-- The date-format guard of `add_sale`:
`len(sdate) != DATE_FORMAT_LENGTH or sdate.count("-") != 2` rejects, with
`DATE_FORMAT_LENGTH = 10`. -/
def dateOk (sdate : String) : Bool :=
  sdate.length == 10 && sdate.toList.count '-' == 2

/-- The outcome `add_sale` reports to the operator. -/
inductive AddResult where
  /-- Printed as `=> 錯誤：日期格式錯誤`. -/
  | errDate : AddResult
  /-- Printed as `=> 錯誤：會員編號或書籍編號無效`. -/
  | errNotFound : AddResult
  /-- Printed as `=> 錯誤：書籍庫存不足 (現有庫存: ...)`, carrying the current stock. -/
  | errStock (current : Int) : AddResult
  /-- Printed as `=> 銷售記錄已新增！`, with the fresh `sid` and the computed total. -/
  | ok (sid : Int) (total : Int) : AddResult
deriving Repr, DecidableEq

/-- Models `add_sale`: validate the date format, look up member and book, check
stock, then atomically insert the sale row (with autoincremented `sid` and
`stotal = bprice * sqty - sdiscount`) and decrement the book's stock.
`sqty` and `sdiscount` arrive through `input_int` (positive, resp.
non-negative). On any validation failure the store is returned unchanged. -/
def addSale (st : Store) (sdate mid bid : String) (sqty sdiscount : Int) :
    AddResult × Store :=
  if !dateOk sdate then (.errDate, st)
  else
    match findMember st mid, findBook st bid with
    | some _, some book =>
      if book.bstock < sqty then (.errStock book.bstock, st)
      else
        let stotal := book.bprice * sqty - sdiscount
        let sid := freshSid st
        (.ok sid stotal,
          { st with
            sales := st.sales ++ [⟨sid, sdate, mid, bid, sqty, sdiscount, stotal⟩]
            books := st.books.map (fun b =>
              if b.bid == bid then { b with bstock := b.bstock - sqty } else b)
            seq := sid })
    | _, _ => (.errNotFound, st)

/-- Models the `update_sale` core (after the caller has translated the operator's
ordinal choice into a `sid` via `list_sales`): fetch the sale's `bid` and
`sqty`, fetch the book's current price, recompute
`new_total = bprice * sqty - new_discount`, and persist `sdiscount` and
`stotal`.  When the sale or the book row is missing the Python code raises
before any write, so nothing is committed: modelled as `none` with the
store unchanged. -/
def updateSale (st : Store) (sid : Int) (newDiscount : Int) :
    Option Int × Store :=
  match findSale st sid with
  | none => (none, st)
  | some sale =>
    match findBook st sale.bid with
    | none => (none, st)
    | some book =>
      let newTotal := book.bprice * sale.sqty - newDiscount
      (some newTotal,
        { st with
          sales := st.sales.map (fun s =>
            if s.sid == sid then
              { s with sdiscount := newDiscount, stotal := newTotal }
            else s) })

/-- Models the `delete_sale` core (after ordinal-to-`sid` translation):
`DELETE FROM sale WHERE sid = ?`. -/
def deleteSale (st : Store) (sid : Int) : Store :=
  { st with sales := st.sales.filter (fun s => !(s.sid == sid)) }

/-- A row of `list_sales()`: `SELECT s.sid, m.mname, s.sdate`. -/
structure ListRow where
  sid : Int
  mname : String
  sdate : String
deriving Repr, DecidableEq

/-- A row of `show_report()`: `SELECT s.sid, s.sdate, m.mname, b.btitle,
b.bprice, s.sqty, s.sdiscount, s.stotal`. -/
structure ReportRow where
  sid : Int
  sdate : String
  mname : String
  btitle : String
  bprice : Int
  sqty : Int
  sdiscount : Int
  stotal : Int
deriving Repr, DecidableEq

/-- Ordering of `list_sales` rows: non-decreasing `sid`. -/
def listRowLe (a b : ListRow) : Prop := a.sid ≤ b.sid

/-- Ordering of `show_report` rows: non-decreasing `sid`. -/
def reportRowLe (a b : ReportRow) : Prop := a.sid ≤ b.sid

instance : DecidableRel listRowLe := fun a b => inferInstanceAs (Decidable (a.sid ≤ b.sid))

instance : DecidableRel reportRowLe := fun a b => inferInstanceAs (Decidable (a.sid ≤ b.sid))

instance : IsTotal ListRow listRowLe := ⟨fun a b => Int.le_total a.sid b.sid⟩

instance : IsTrans ListRow listRowLe := ⟨fun _ _ _ h h' => le_trans h h'⟩

instance : IsTotal ReportRow reportRowLe := ⟨fun a b => Int.le_total a.sid b.sid⟩

instance : IsTrans ReportRow reportRowLe := ⟨fun _ _ _ h h' => le_trans h h'⟩

/-- Models `list_sales()`: inner join `sale JOIN member ON s.mid = m.mid`,
projected to `(sid, mname, sdate)` and ordered by `sid`. -/
def listSales (st : Store) : List ListRow :=
  List.insertionSort listRowLe
    (st.sales.flatMap (fun s =>
      (st.members.filter (fun m => m.mid == s.mid)).map (fun m =>
        ⟨s.sid, m.mname, s.sdate⟩)))

/-- The rows of `show_report()`: inner join
`sale JOIN member ON s.mid = m.mid JOIN book ON s.bid = b.bid`,
ordered by `sid`. -/
def reportRows (st : Store) : List ReportRow :=
  List.insertionSort reportRowLe
    (st.sales.flatMap (fun s =>
      (st.members.filter (fun m => m.mid == s.mid)).flatMap (fun m =>
        (st.books.filter (fun b => b.bid == s.bid)).map (fun b =>
          ⟨s.sid, s.sdate, m.mname, b.btitle, b.bprice, s.sqty, s.sdiscount,
            s.stotal⟩))))

/-- Models `show_report()` as a store operation: it only runs the `SELECT` above and
prints, so it returns its rows and leaves the store untouched. -/
def showReport (st : Store) : List ReportRow × Store :=
  (reportRows st, st)

/-- The seed data inserted by `initialize_database()`:
three members, three books, four sales; the autoincrement sequence stands at
the largest seeded `sid`. -/
def initStore : Store :=
  { members :=
      [⟨"M001", "Alice", "0912-345678", some "alice@example.com"⟩,
       ⟨"M002", "Bob", "0923-456789", some "bob@example.com"⟩,
       ⟨"M003", "Cathy", "0934-567890", some "cathy@example.com"⟩]
    books :=
      [⟨"B001", "Python Programming", 600, 50⟩,
       ⟨"B002", "Data Science Basics", 800, 30⟩,
       ⟨"B003", "Machine Learning Guide", 1200, 20⟩]
    sales :=
      [⟨1, "2024-01-15", "M001", "B001", 2, 100, 1100⟩,
       ⟨2, "2024-01-16", "M002", "B002", 1, 50, 750⟩,
       ⟨3, "2024-01-17", "M001", "B003", 3, 200, 3400⟩,
       ⟨4, "2024-01-18", "M003", "B001", 1, 0, 600⟩]
    seq := 4 }

/-- A store state the schema admits (no foreign-key constraint on `sale`):
the seed data plus a sale row whose `mid` and `bid` match no member and no
book. -/
def orphanStore : Store :=
  { initStore with
    sales := initStore.sales ++ [⟨9, "2024-03-01", "M999", "B999", 1, 0, 500⟩]
    seq := 9 }

/-! ## Helper lemmas -/

/-- Pushing `find?` through a keyed `UPDATE`: if the update function preserves the
key predicate, the first matching row of the updated table is the updated
first matching row of the original table. -/
theorem find?_map_guard {α : Type} (p : α → Bool) (f : α → α)
    (hp : ∀ a, p (f a) = p a) (l : List α) (x : α) (h : l.find? p = some x) :
    (l.map (fun a => if p a then f a else a)).find? p = some (f x) := by
  induction l with
  | nil => simp at h
  | cons a t ih =>
    by_cases hpa : p a = true
    · rw [List.find?_cons_of_pos _ hpa] at h
      obtain rfl : a = x := Option.some.inj h
      simp only [List.map_cons, if_pos hpa]
      exact List.find?_cons_of_pos _ (by rw [hp]; exact hpa)
    · rw [List.find?_cons_of_neg _ hpa] at h
      simp only [List.map_cons, if_neg hpa]
      rw [List.find?_cons_of_neg _ hpa]
      exact ih h

/-- Rows missed by a keyed `UPDATE` stay in the table. -/
theorem mem_map_guard {α : Type} (p : α → Bool) (f : α → α) {l : List α}
    {a : α} (ha : a ∈ l) (hpa : p a = false) :
    a ∈ l.map (fun b => if p b then f b else b) := by
  refine List.mem_map.2 ⟨a, ha, ?_⟩
  simp [hpa]

/-- Rows of the updated table missed by the keyed `UPDATE` were already in
the original table. -/
theorem mem_of_mem_map_guard {α : Type} (p : α → Bool) (f : α → α)
    (hp : ∀ a, p (f a) = p a) {l : List α} {b : α}
    (hb : b ∈ l.map (fun a => if p a then f a else a)) (hpb : p b = false) :
    b ∈ l := by
  obtain ⟨a, ha, rfl⟩ := List.mem_map.1 hb
  by_cases hpa : p a = true
  · rw [if_pos hpa, hp, hpa] at hpb
    cases hpb
  · rwa [if_neg hpa]

/-- Every `sid` in the table is bounded by `maxSid`. -/
theorem sid_le_maxSid {sales : List Sale} {s : Sale} (h : s ∈ sales) :
    s.sid ≤ maxSid sales := by
  induction sales with
  | nil => cases h
  | cons a t ih =>
    simp only [maxSid, List.foldr_cons]
    rcases List.mem_cons.1 h with rfl | h'
    · exact le_max_left _ _
    · exact le_trans (ih h') (le_max_right _ _)

/-- The `sid` handed out by `AUTOINCREMENT` is strictly larger than every
`sid` already in the table. -/
theorem sid_lt_freshSid {st : Store} {s : Sale} (h : s ∈ st.sales) :
    s.sid < freshSid st :=
  lt_of_le_of_lt (le_trans (sid_le_maxSid h) (le_max_right st.seq _))
    (lt_add_one _)

/-- Case analysis of a successful `add_sale`: the date passed the format
check, the member and book were found, the stock sufficed, and the result
is exactly the insert-plus-decrement commit. -/
theorem addSale_ok_cases (st : Store) (sdate mid bid : String)
    (sqty sdiscount sid tot : Int) (st' : Store)
    (h : addSale st sdate mid bid sqty sdiscount = (.ok sid tot, st')) :
    dateOk sdate = true ∧
    ∃ mem bk, findMember st mid = some mem ∧ findBook st bid = some bk ∧
      sqty ≤ bk.bstock ∧ sid = freshSid st ∧
      tot = bk.bprice * sqty - sdiscount ∧
      st' = { st with
        sales := st.sales ++ [⟨sid, sdate, mid, bid, sqty, sdiscount, tot⟩]
        books := st.books.map (fun b =>
          if b.bid == bid then { b with bstock := b.bstock - sqty } else b)
        seq := sid } := by
  by_cases hd : dateOk sdate
  case neg =>
    have hd' : dateOk sdate = false := Bool.eq_false_iff.mpr hd
    simp [addSale, hd'] at h
  case pos =>
    rcases hm : findMember st mid with _ | mem
    · simp [addSale, hd, hm] at h
    · rcases hb : findBook st bid with _ | book
      · simp [addSale, hd, hm, hb] at h
      · by_cases hst : book.bstock < sqty
        · simp [addSale, hd, hm, hb, hst] at h
        · simp only [addSale, hd, hm, hb, if_neg hst, Bool.not_true,
            Bool.false_eq_true, if_false, Prod.mk.injEq, AddResult.ok.injEq] at h
          obtain ⟨⟨hsid, htot⟩, hst'⟩ := h
          subst hsid; subst htot; subst hst'
          exact ⟨hd, mem, book, rfl, rfl, not_lt.1 hst, rfl, rfl, rfl⟩

/-- Full outcome analysis of `add_sale`: either the date format was
rejected, or a lookup failed, or the stock was insufficient (each leaving
the store untouched), or the sale was committed. -/
theorem addSale_cases (st : Store) (sdate mid bid : String)
    (sqty sdiscount : Int) :
    (addSale st sdate mid bid sqty sdiscount = (.errDate, st) ∧
      dateOk sdate = false) ∨
    (addSale st sdate mid bid sqty sdiscount = (.errNotFound, st) ∧
      dateOk sdate = true ∧
      (findMember st mid = none ∨ findBook st bid = none)) ∨
    (∃ bk, addSale st sdate mid bid sqty sdiscount = (.errStock bk.bstock, st) ∧
      dateOk sdate = true ∧ findBook st bid = some bk ∧ bk.bstock < sqty) ∨
    (∃ sid tot bk, (addSale st sdate mid bid sqty sdiscount).1 = .ok sid tot ∧
      dateOk sdate = true ∧ findBook st bid = some bk ∧ sqty ≤ bk.bstock) := by
  by_cases hd : dateOk sdate
  · rcases hm : findMember st mid with _ | mem
    · exact Or.inr (Or.inl ⟨by simp [addSale, hd, hm], hd, Or.inl rfl⟩)
    · rcases hb : findBook st bid with _ | book
      · exact Or.inr (Or.inl ⟨by simp [addSale, hd, hm, hb], hd, Or.inr rfl⟩)
      · by_cases hst : book.bstock < sqty
        · exact Or.inr (Or.inr (Or.inl
            ⟨book, by simp [addSale, hd, hm, hb, hst], hd, rfl, hst⟩))
        · exact Or.inr (Or.inr (Or.inr
            ⟨freshSid st, book.bprice * sqty - sdiscount, book,
              by simp [addSale, hd, hm, hb, hst], hd, rfl, not_lt.1 hst⟩))
  · have hd' : dateOk sdate = false := Bool.eq_false_iff.mpr hd
    exact Or.inl ⟨by simp [addSale, hd'], hd'⟩

/-- C1: for every successful `add_sale` on an existing member and book with
sufficient stock, the referenced book's stock afterwards equals
`stock_before - quantity`, that stock is non-negative, and the set of books
with any other key is unchanged. -/
theorem addSale_stock_decrement (st : Store) (sdate mid bid : String)
    (sqty sdiscount sid tot : Int) (st' : Store)
    (h : addSale st sdate mid bid sqty sdiscount = (.ok sid tot, st')) :
    ∃ bk, findBook st bid = some bk ∧ sqty ≤ bk.bstock ∧
      findBook st' bid = some { bk with bstock := bk.bstock - sqty } ∧
      0 ≤ bk.bstock - sqty ∧
      (∀ b ∈ st.books, ¬ b.bid = bid → b ∈ st'.books) ∧
      (∀ b ∈ st'.books, ¬ b.bid = bid → b ∈ st.books) := by
  obtain ⟨-, mem, bk, hm, hb, hle, hsid, htot, hst'⟩ :=
    addSale_ok_cases _ _ _ _ _ _ _ _ _ h
  subst hst'
  refine ⟨bk, hb, hle, ?_, by omega, ?_, ?_⟩
  · exact find?_map_guard (fun (b : Book) => b.bid == bid)
      (fun (b : Book) => { b with bstock := b.bstock - sqty }) (fun a => rfl)
      st.books bk hb
  · intro b hbmem hbneq
    exact mem_map_guard (fun (b : Book) => b.bid == bid)
      (fun (b : Book) => { b with bstock := b.bstock - sqty }) hbmem
      (beq_eq_false_iff_ne.mpr hbneq)
  · intro b hbmem hbneq
    exact mem_of_mem_map_guard (fun (b : Book) => b.bid == bid)
      (fun (b : Book) => { b with bstock := b.bstock - sqty }) (fun a => rfl) hbmem
      (beq_eq_false_iff_ne.mpr hbneq)

/-- C1 witness: adding 2 copies of B001 (stock 50) to the seed store leaves
B001 with stock 48 and the other books untouched. -/
theorem addSale_stock_decrement_witness :
    ∃ bk, findBook initStore "B001" = some bk ∧ (2 : Int) ≤ bk.bstock ∧
      findBook ((addSale initStore "2024-02-01" "M001" "B001" 2 100).2) "B001" =
        some { bk with bstock := bk.bstock - 2 } ∧
      (0 : Int) ≤ bk.bstock - 2 ∧
      (∀ b ∈ initStore.books, ¬ b.bid = "B001" →
        b ∈ ((addSale initStore "2024-02-01" "M001" "B001" 2 100).2).books) ∧
      (∀ b ∈ ((addSale initStore "2024-02-01" "M001" "B001" 2 100).2).books,
        ¬ b.bid = "B001" → b ∈ initStore.books) :=
  addSale_stock_decrement initStore "2024-02-01" "M001" "B001" 2 100 5 1100 _ rfl

/-- C2: when `add_sale` fails because the member or book does not exist or
because the stock is insufficient, the store is exactly as before, and the
insufficient-stock error carries the book's current stock. -/
theorem addSale_failure_atomic (st : Store) (sdate mid bid : String)
    (sqty sdiscount c : Int)
    (h : (addSale st sdate mid bid sqty sdiscount).1 = .errNotFound ∨
         (addSale st sdate mid bid sqty sdiscount).1 = .errStock c) :
    (addSale st sdate mid bid sqty sdiscount).2 = st ∧
      ((addSale st sdate mid bid sqty sdiscount).1 = .errStock c →
        ∃ bk, findBook st bid = some bk ∧ c = bk.bstock) := by
  rcases addSale_cases st sdate mid bid sqty sdiscount with
    ⟨he, -⟩ | ⟨he, -⟩ | ⟨bk, he, -, hb, -⟩ | ⟨sid, tot, bk, he, -, -, -⟩
  · rw [he] at h
    simp at h
  · rw [he] at h ⊢
    exact ⟨rfl, fun hc => by simp at hc⟩
  · rw [he] at h ⊢
    refine ⟨rfl, fun hc => ?_⟩
    simp only [AddResult.errStock.injEq] at hc
    exact ⟨bk, hb, hc.symm⟩
  · rw [he] at h
    simp at h

/-- C2 witness: requesting 100 copies of B001 (stock 50) from the seed
store fails with `errStock 50` and leaves the store unchanged. -/
theorem addSale_failure_atomic_witness :
    (addSale initStore "2024-02-01" "M001" "B001" 100 0).2 = initStore ∧
      ((addSale initStore "2024-02-01" "M001" "B001" 100 0).1 =
          AddResult.errStock 50 →
        ∃ bk, findBook initStore "B001" = some bk ∧ (50 : Int) = bk.bstock) :=
  addSale_failure_atomic initStore "2024-02-01" "M001" "B001" 100 0 50
    (Or.inr rfl)

/-- C3: every successful `add_sale` appends exactly one sale row whose
`stotal` is the book's price times the quantity minus the discount, with a
fresh autoincremented `sid` strictly greater than every existing `sid`. -/
theorem addSale_total_and_sid (st : Store) (sdate mid bid : String)
    (sqty sdiscount sid tot : Int) (st' : Store)
    (h : addSale st sdate mid bid sqty sdiscount = (.ok sid tot, st')) :
    ∃ bk, findBook st bid = some bk ∧
      st'.sales = st.sales ++ [⟨sid, sdate, mid, bid, sqty, sdiscount, tot⟩] ∧
      tot = bk.bprice * sqty - sdiscount ∧
      sid = freshSid st ∧
      ∀ s ∈ st.sales, s.sid < sid := by
  obtain ⟨-, mem, bk, hm, hb, hle, hsid, htot, hst'⟩ :=
    addSale_ok_cases _ _ _ _ _ _ _ _ _ h
  subst hsid; subst htot; subst hst'
  exact ⟨bk, hb, rfl, rfl, rfl, fun s hs => sid_lt_freshSid hs⟩

/-- C3 witness: the spec's concrete example — quantity 2 and discount 100 on
book B001 priced 600 — yields total `600*2 - 100 = 1100` and the fresh
`sid` 5 on the seed store. -/
theorem addSale_total_and_sid_witness :
    ∃ bk, findBook initStore "B001" = some bk ∧
      ((addSale initStore "2024-02-01" "M001" "B001" 2 100).2).sales =
        initStore.sales ++ [⟨5, "2024-02-01", "M001", "B001", 2, 100, 1100⟩] ∧
      (1100 : Int) = bk.bprice * 2 - 100 ∧
      (5 : Int) = freshSid initStore ∧
      ∀ s ∈ initStore.sales, s.sid < 5 :=
  addSale_total_and_sid initStore "2024-02-01" "M001" "B001" 2 100 5 1100 _ rfl

/-- The date-format guard in terms of the spec's wording: exactly 10
characters and exactly two `-` separators. -/
theorem dateOk_iff (sdate : String) :
    dateOk sdate = true ↔
      (sdate.length = 10 ∧ sdate.toList.count '-' = 2) := by
  simp [dateOk]

/-- Deleting the rows satisfying `p` shrinks the table by `countP p`. -/
theorem length_filter_not {α : Type} (p : α → Bool) (l : List α) :
    (l.filter (fun a => !p a)).length + l.countP p = l.length := by
  induction l with
  | nil => rfl
  | cons a t ih =>
    cases hpa : p a
    · simp [List.filter_cons, List.countP_cons, hpa]
      omega
    · simp [List.filter_cons, List.countP_cons, hpa]
      omega

/-- Every row of `list_sales()` is the projection of a sale row joined to a
member row with the matching `mid`. -/
theorem mem_listSales {st : Store} {r : ListRow} (h : r ∈ listSales st) :
    ∃ s ∈ st.sales, ∃ m ∈ st.members, m.mid = s.mid ∧
      r = ⟨s.sid, m.mname, s.sdate⟩ := by
  have h1 : r ∈ st.sales.flatMap (fun s =>
      (st.members.filter (fun m => m.mid == s.mid)).map (fun m =>
        (⟨s.sid, m.mname, s.sdate⟩ : ListRow))) :=
    (List.perm_insertionSort listRowLe _).mem_iff.mp h
  obtain ⟨s, hs, hr⟩ := List.mem_flatMap.1 h1
  obtain ⟨m, hm, rfl⟩ := List.mem_map.1 hr
  obtain ⟨hmm, hmid⟩ := List.mem_filter.1 hm
  exact ⟨s, hs, m, hmm, eq_of_beq hmid, rfl⟩

/-- Every row of `show_report()` is the projection of a sale row joined to
a member and a book row with the matching keys. -/
theorem mem_reportRows {st : Store} {r : ReportRow} (h : r ∈ reportRows st) :
    ∃ s ∈ st.sales, ∃ m ∈ st.members, ∃ b ∈ st.books,
      m.mid = s.mid ∧ b.bid = s.bid ∧
      r = ⟨s.sid, s.sdate, m.mname, b.btitle, b.bprice, s.sqty, s.sdiscount,
        s.stotal⟩ := by
  have h1 : r ∈ st.sales.flatMap (fun s =>
      (st.members.filter (fun m => m.mid == s.mid)).flatMap (fun m =>
        (st.books.filter (fun b => b.bid == s.bid)).map (fun b =>
          (⟨s.sid, s.sdate, m.mname, b.btitle, b.bprice, s.sqty, s.sdiscount,
            s.stotal⟩ : ReportRow)))) :=
    (List.perm_insertionSort reportRowLe _).mem_iff.mp h
  obtain ⟨s, hs, hr⟩ := List.mem_flatMap.1 h1
  obtain ⟨m, hm, hr2⟩ := List.mem_flatMap.1 hr
  obtain ⟨b, hb, rfl⟩ := List.mem_map.1 hr2
  obtain ⟨hmm, hmid⟩ := List.mem_filter.1 hm
  obtain ⟨hbm, hbid⟩ := List.mem_filter.1 hb
  exact ⟨s, hs, m, hmm, b, hbm, eq_of_beq hmid, eq_of_beq hbid, rfl⟩

/-- C4: a successful discount update on an existing sale whose book exists
recomputes the total from the book's price at update time and the sale's
stored quantity, changes only `sdiscount` and `stotal` of that sale, and
touches neither the books nor the members, nor any other sale. -/
theorem updateSale_recompute (st : Store) (sid newDiscount : Int)
    (sl : Sale) (bk : Book)
    (hsl : findSale st sid = some sl) (hbk : findBook st sl.bid = some bk)
    (_hnd : 0 ≤ newDiscount) :
    (updateSale st sid newDiscount).1 =
      some (bk.bprice * sl.sqty - newDiscount) ∧
    ((updateSale st sid newDiscount).2).books = st.books ∧
    ((updateSale st sid newDiscount).2).members = st.members ∧
    findSale ((updateSale st sid newDiscount).2) sid =
      some { sl with sdiscount := newDiscount,
                     stotal := bk.bprice * sl.sqty - newDiscount } ∧
    ∀ s ∈ st.sales, ¬ s.sid = sid →
      s ∈ ((updateSale st sid newDiscount).2).sales := by
  simp only [updateSale, hsl, hbk]
  refine ⟨trivial, trivial, trivial, ?_, ?_⟩
  · exact find?_map_guard (fun (s : Sale) => s.sid == sid)
      (fun (s : Sale) => { s with sdiscount := newDiscount, stotal := bk.bprice * sl.sqty - newDiscount })
      (fun a => rfl) st.sales sl hsl
  · intro s hs hneq
    exact mem_map_guard (fun (s : Sale) => s.sid == sid)
      (fun (s : Sale) => { s with sdiscount := newDiscount, stotal := bk.bprice * sl.sqty - newDiscount })
      hs (beq_eq_false_iff_ne.mpr hneq)

/-- C4 witness: updating sale 3 (quantity 3, book B003 priced 1200) with
discount 200 on the seed store yields the recomputed total `1200*3 - 200`
and leaves books, members and the other sales unchanged. -/
theorem updateSale_recompute_witness :
    (updateSale initStore 3 200).1 = some ((1200 : Int) * 3 - 200) ∧
    ((updateSale initStore 3 200).2).books = initStore.books ∧
    ((updateSale initStore 3 200).2).members = initStore.members ∧
    findSale ((updateSale initStore 3 200).2) 3 =
      some ⟨3, "2024-01-17", "M001", "B003", 3, 200, (1200 : Int) * 3 - 200⟩ ∧
    ∀ s ∈ initStore.sales, ¬ s.sid = 3 →
      s ∈ ((updateSale initStore 3 200).2).sales :=
  updateSale_recompute initStore 3 200
    ⟨3, "2024-01-17", "M001", "B003", 3, 200, 3400⟩
    ⟨"B003", "Machine Learning Guide", 1200, 20⟩ rfl rfl (by decide)

/-- C5: deleting an existing sale (its `sid` held by exactly one row, as the
primary key guarantees) removes exactly that row: the count drops by one,
`list_sales` no longer shows the `sid`, all other sales survive, no new
sales appear, and books and members are untouched. -/
theorem deleteSale_removes_one (st : Store) (sid : Int)
    (hone : st.sales.countP (fun s => s.sid == sid) = 1) :
    (deleteSale st sid).sales.length + 1 = st.sales.length ∧
    (∀ r ∈ listSales (deleteSale st sid), ¬ r.sid = sid) ∧
    (∀ s ∈ st.sales, ¬ s.sid = sid → s ∈ (deleteSale st sid).sales) ∧
    (∀ s ∈ (deleteSale st sid).sales, s ∈ st.sales) ∧
    (deleteSale st sid).books = st.books ∧
    (deleteSale st sid).members = st.members := by
  refine ⟨?_, ?_, ?_, ?_, rfl, rfl⟩
  · have := length_filter_not (fun (s : Sale) => s.sid == sid) st.sales
    rw [hone] at this
    exact this
  · intro r hr heq
    obtain ⟨s, hs, m, hm, hmid, rfl⟩ := mem_listSales hr
    obtain ⟨-, hsneq⟩ := List.mem_filter.1 hs
    rw [Bool.not_eq_true', beq_eq_false_iff_ne] at hsneq
    exact hsneq heq
  · intro s hs hneq
    exact List.mem_filter.2 ⟨hs, by
      rw [Bool.not_eq_true', beq_eq_false_iff_ne]; exact hneq⟩
  · intro s hs
    exact (List.mem_filter.1 hs).1

/-- C5 witness: deleting sale 2 from the seed store leaves three sales,
none listed with `sid = 2`, with books and members untouched. -/
theorem deleteSale_removes_one_witness :
    (deleteSale initStore 2).sales.length + 1 = initStore.sales.length ∧
    (∀ r ∈ listSales (deleteSale initStore 2), ¬ r.sid = 2) ∧
    (∀ s ∈ initStore.sales, ¬ s.sid = 2 → s ∈ (deleteSale initStore 2).sales) ∧
    (∀ s ∈ (deleteSale initStore 2).sales, s ∈ initStore.sales) ∧
    (deleteSale initStore 2).books = initStore.books ∧
    (deleteSale initStore 2).members = initStore.members :=
  deleteSale_removes_one initStore 2 (by decide)

/-- C6: `add_sale` gets past the date check exactly when the date string has
exactly 10 characters and exactly two `-` separators; a rejected date leaves
the store unchanged; and the calendar-invalid string `"9999-99-99"` passes
the format check. -/
theorem addSale_date_format (st : Store) (sdate mid bid : String)
    (sqty sdiscount : Int) :
    ((addSale st sdate mid bid sqty sdiscount).1 ≠ AddResult.errDate ↔
      (sdate.length = 10 ∧ sdate.toList.count '-' = 2)) ∧
    ((addSale st sdate mid bid sqty sdiscount).1 = AddResult.errDate →
      (addSale st sdate mid bid sqty sdiscount).2 = st) ∧
    dateOk "9999-99-99" = true := by
  refine ⟨?_, ?_, by decide⟩
  · rcases addSale_cases st sdate mid bid sqty sdiscount with
      ⟨he, hdf⟩ | ⟨he, hdt, -⟩ | ⟨bk, he, hdt, -, -⟩ | ⟨sid, tot, bk, he, hdt, -, -⟩
    · rw [he]
      constructor
      · intro hne
        exact absurd rfl hne
      · intro hrhs
        rw [(dateOk_iff sdate).mpr hrhs] at hdf
        cases hdf
    · rw [he]
      exact ⟨fun _ => (dateOk_iff sdate).mp hdt, fun _ => by simp⟩
    · rw [he]
      exact ⟨fun _ => (dateOk_iff sdate).mp hdt, fun _ => by simp⟩
    · rw [he]
      exact ⟨fun _ => (dateOk_iff sdate).mp hdt, fun _ => by simp⟩
  · intro hc
    rcases addSale_cases st sdate mid bid sqty sdiscount with
      ⟨he, -⟩ | ⟨he, -, -⟩ | ⟨bk, he, -, -, -⟩ | ⟨sid, tot, bk, he, -, -, -⟩
    · rw [he]
    · rw [he] at hc
      simp at hc
    · rw [he] at hc
      simp at hc
    · rw [he] at hc
      simp at hc

/-- C6 witness: the 10-character string `"2024/01/15"` contains no `-`, so
`add_sale` rejects it and the seed store is unchanged. -/
theorem addSale_date_format_witness :
    ((addSale initStore "2024/01/15" "M001" "B001" 1 0).1 ≠
        AddResult.errDate ↔
      ("2024/01/15".length = 10 ∧ "2024/01/15".toList.count '-' = 2)) ∧
    ((addSale initStore "2024/01/15" "M001" "B001" 1 0).1 =
        AddResult.errDate →
      (addSale initStore "2024/01/15" "M001" "B001" 1 0).2 = initStore) ∧
    dateOk "9999-99-99" = true :=
  addSale_date_format initStore "2024/01/15" "M001" "B001" 1 0

/-- C7: starting from non-negative stocks (with `bid` a genuine key), every
operation preserves `stock >= 0`; `add_sale` is the only operation that
changes the book table at all, and a successful `add_sale` has verified
that the quantity is at most the referenced book's current stock. -/
theorem stock_nonneg_preserved (st : Store)
    (hpos : ∀ bk ∈ st.books, 0 ≤ bk.bstock)
    (hkeys : (st.books.map Book.bid).Nodup) :
    (∀ sdate mid bid : String, ∀ sqty sdiscount : Int,
      ∀ bk ∈ ((addSale st sdate mid bid sqty sdiscount).2).books,
        0 ≤ bk.bstock) ∧
    (∀ sdate mid bid : String, ∀ sqty sdiscount sid tot : Int,
      (addSale st sdate mid bid sqty sdiscount).1 = .ok sid tot →
      ∃ bk, findBook st bid = some bk ∧ sqty ≤ bk.bstock) ∧
    (∀ sid newDiscount : Int,
      ((updateSale st sid newDiscount).2).books = st.books) ∧
    (∀ sid : Int, (deleteSale st sid).books = st.books) := by
  refine ⟨?_, ?_, ?_, fun _ => rfl⟩
  · intro sdate mid bid sqty sdiscount bk hbk
    rcases addSale_cases st sdate mid bid sqty sdiscount with
      ⟨he, -⟩ | ⟨he, -, -⟩ | ⟨bk0, he, -, -, -⟩ | ⟨sid, tot, bk0, he, -, -, -⟩
    · rw [he] at hbk
      exact hpos bk hbk
    · rw [he] at hbk
      exact hpos bk hbk
    · rw [he] at hbk
      exact hpos bk hbk
    · have hpair : addSale st sdate mid bid sqty sdiscount =
        (.ok sid tot, (addSale st sdate mid bid sqty sdiscount).2) := by
        rw [← he]
      obtain ⟨-, mem, bk1, hm, hb1, hle, -, -, hst'⟩ :=
        addSale_ok_cases _ _ _ _ _ _ _ _ _ hpair
      rw [hst'] at hbk
      obtain ⟨b, hbmem, rfl⟩ := List.mem_map.1 hbk
      by_cases hpb : (b.bid == bid) = true
      · have hb1f : st.books.find? (fun b => b.bid == bid) = some bk1 := hb1
        have hb1mem : bk1 ∈ st.books := List.mem_of_find?_eq_some hb1f
        have hb1p := List.find?_some hb1f
        have hb1bid : bk1.bid = bid := eq_of_beq hb1p
        have hbb : b = bk1 :=
          List.inj_on_of_nodup_map hkeys hbmem hb1mem
            (by rw [eq_of_beq hpb, hb1bid])
        subst hbb
        rw [if_pos hpb]
        have := hpos b hbmem
        simp only []
        omega
      · rw [if_neg hpb]
        exact hpos b hbmem
  · intro sdate mid bid sqty sdiscount sid tot he
    rcases addSale_cases st sdate mid bid sqty sdiscount with
      ⟨he2, -⟩ | ⟨he2, -, -⟩ | ⟨bk0, he2, -, -, -⟩ |
      ⟨sid2, tot2, bk0, he2, -, hb0, hle0⟩
    · rw [he2] at he
      simp at he
    · rw [he2] at he
      simp at he
    · rw [he2] at he
      simp at he
    · exact ⟨bk0, hb0, hle0⟩
  · intro sid newDiscount
    rcases hsl : findSale st sid with _ | sl
    · simp [updateSale, hsl]
    · rcases hbk : findBook st sl.bid with _ | bk
      · simp [updateSale, hsl, hbk]
      · simp [updateSale, hsl, hbk]

/-- C7 witness: the preservation theorem applies to the seed store, whose
stocks are non-negative and whose book keys are distinct. -/
theorem stock_nonneg_preserved_witness :
    (∀ sdate mid bid : String, ∀ sqty sdiscount : Int,
      ∀ bk ∈ ((addSale initStore sdate mid bid sqty sdiscount).2).books,
        0 ≤ bk.bstock) ∧
    (∀ sdate mid bid : String, ∀ sqty sdiscount sid tot : Int,
      (addSale initStore sdate mid bid sqty sdiscount).1 = .ok sid tot →
      ∃ bk, findBook initStore bid = some bk ∧ sqty ≤ bk.bstock) ∧
    (∀ sid newDiscount : Int,
      ((updateSale initStore sid newDiscount).2).books = initStore.books) ∧
    (∀ sid : Int, (deleteSale initStore sid).books = initStore.books) :=
  stock_nonneg_preserved initStore (by decide) (by decide)

/-- C8: `list_sales()` and the rows of `show_report()` are always in
non-decreasing `sid` order, over any store state whatsoever. -/
theorem projections_sorted_by_sid (st : Store) :
    List.Sorted listRowLe (listSales st) ∧
    List.Sorted reportRowLe (reportRows st) ∧
    List.Sorted reportRowLe ((showReport st).1) :=
  ⟨List.sorted_insertionSort _ _, List.sorted_insertionSort _ _,
    List.sorted_insertionSort _ _⟩

/-- C9: `show_report()` is a pure read: it leaves the store exactly as it
was, and running it twice in a row yields identical row sequences. -/
theorem showReport_pure_read (st : Store) :
    (showReport st).2 = st ∧
    (showReport ((showReport st).2)).1 = (showReport st).1 :=
  ⟨rfl, rfl⟩

/-- C10: with no foreign-key constraint on `sale`, a sale row whose `mid`
matches no member is silently omitted from `list_sales()`, and one whose
`bid` matches no book is silently omitted from `show_report()` (assuming
`sid` is a genuine key): no error is reported, the row simply disappears
from the projection. -/
theorem joins_omit_orphans (st : Store) (s : Sale) (hs : s ∈ st.sales)
    (hnd : (st.sales.map Sale.sid).Nodup) :
    ((∀ m ∈ st.members, ¬ m.mid = s.mid) →
      ∀ r ∈ listSales st, ¬ r.sid = s.sid) ∧
    ((∀ b ∈ st.books, ¬ b.bid = s.bid) →
      ∀ r ∈ reportRows st, ¬ r.sid = s.sid) := by
  constructor
  · intro hno r hr heq
    obtain ⟨s2, hs2, m, hm, hmid, rfl⟩ := mem_listSales hr
    have hss : s2 = s := List.inj_on_of_nodup_map hnd hs2 hs heq
    subst hss
    exact hno m hm hmid
  · intro hno r hr heq
    obtain ⟨s2, hs2, m, hm, b, hb, hmid, hbid, rfl⟩ := mem_reportRows hr
    have hss : s2 = s := List.inj_on_of_nodup_map hnd hs2 hs heq
    subst hss
    exact hno b hb hbid

/-- C10 witness: the orphan sale 9 (`mid = "M999"`, `bid = "B999"`) is a
legal row of the store yet appears in neither projection. -/
theorem joins_omit_orphans_witness :
    ((∀ m ∈ orphanStore.members,
        ¬ m.mid = (⟨9, "2024-03-01", "M999", "B999", 1, 0, 500⟩ : Sale).mid) →
      ∀ r ∈ listSales orphanStore, ¬ r.sid = 9) ∧
    ((∀ b ∈ orphanStore.books,
        ¬ b.bid = (⟨9, "2024-03-01", "M999", "B999", 1, 0, 500⟩ : Sale).bid) →
      ∀ r ∈ reportRows orphanStore, ¬ r.sid = 9) :=
  joins_omit_orphans orphanStore ⟨9, "2024-03-01", "M999", "B999", 1, 0, 500⟩
    (by decide) (by decide)

end Bookstore
